import Mathlib

/-!
Verification development for the ArquiCostos construction cost-estimating
application (src/App.tsx, src/unnamed/part_000 = the type declarations).

The embedding is shallow: TypeScript numbers are modelled as rationals (ℚ),
TypeScript arrays as Lean lists, and the duck-typed JSON values flowing
through the import/restore handlers as an inductive `Json` type.  The React
state pair (in-memory `projects` array, `localStorage` document under the
key "arquicostos-projects") is modelled as `AppState`; a persisted string
that `JSON.parse` rejects is modelled as `Except.error`.
-/

namespace ArquiCostos

/-- `ResourceType` enum from src/unnamed/part_000. -/
inductive ResourceType where
  | MATERIAL
  | MANO_DE_OBRA
  | EQUIPO
  | TRANSPORTE
deriving DecidableEq, BEq, Repr

/-- `Resource` interface from src/unnamed/part_000. -/
structure Resource where
  id : String
  name : String
  unit : String
  price : ℚ
  quantity : ℚ
  type : ResourceType
deriving DecidableEq, Repr

/-- `APU` interface from src/unnamed/part_000. -/
structure APU where
  id : String
  code : String
  description : String
  unit : String
  quantity : ℚ
  resources : List Resource
  indirectsPercentage : ℚ
  profitPercentage : ℚ
  category : String
deriving DecidableEq, Repr

/-- `Project` interface from src/unnamed/part_000 (optional fields
`location`, `client` omitted: no claim mentions them). -/
structure Project where
  id : String
  name : String
  lastModified : ℚ
  apus : List APU
deriving DecidableEq, Repr

/-- `ProjectStats` interface from src/unnamed/part_000. -/
structure ProjectStats where
  totalDirectCost : ℚ
  totalPrice : ℚ
  materialCost : ℚ
  laborCost : ℚ
  equipmentCost : ℚ
  transportCost : ℚ
deriving DecidableEq, Repr

/-- `calculateUnitPrice` from src/App.tsx lines 183-188:
`reduce` over the resources accumulating `price * quantity`, then the
indirects and profit markups stacked in that order. -/
def calculateUnitPrice (apu : APU) : ℚ :=
  let directCost := apu.resources.foldl (fun acc curr => acc + curr.price * curr.quantity) 0
  let indirects := directCost * (apu.indirectsPercentage / 100)
  let profit := (directCost + indirects) * (apu.profitPercentage / 100)
  directCost + indirects + profit

/-- `calculateTotalFromList` from src/App.tsx lines 190-192. -/
def calculateTotalFromList (list : List APU) : ℚ :=
  list.foldl (fun acc apu => acc + calculateUnitPrice apu * apu.quantity) 0

/-- The direct cost of an APU, Σ price × quantity over its resources
(the `reduce` seed expression inside `calculateUnitPrice`). -/
def directCost (apu : APU) : ℚ :=
  (apu.resources.map (fun r => r.price * r.quantity)).sum

/-- Modelled from the spec: the category subtotals of `ProjectStats` are
computed in components/SummaryCard.tsx, which is not part of the given
sources; per the spec they sum, across every APU and every Resource
therein, `price × quantity` filtered by the resource's `type`, without any
markup, while `totalPrice` is the marked-up `calculateTotalFromList`. -/
def computeProjectStats (apus : List APU) : ProjectStats :=
  { totalDirectCost := (apus.map (fun a => directCost a)).sum
    totalPrice := calculateTotalFromList apus
    materialCost := (apus.map (fun a =>
      ((a.resources.filter (fun r => r.type == ResourceType.MATERIAL)).map
        (fun r => r.price * r.quantity)).sum)).sum
    laborCost := (apus.map (fun a =>
      ((a.resources.filter (fun r => r.type == ResourceType.MANO_DE_OBRA)).map
        (fun r => r.price * r.quantity)).sum)).sum
    equipmentCost := (apus.map (fun a =>
      ((a.resources.filter (fun r => r.type == ResourceType.EQUIPO)).map
        (fun r => r.price * r.quantity)).sum)).sum
    transportCost := (apus.map (fun a =>
      ((a.resources.filter (fun r => r.type == ResourceType.TRANSPORTE)).map
        (fun r => r.price * r.quantity)).sum)).sum }

/-- Runtime JSON values, the result of `JSON.parse` on an import/restore
file (`undefined` cannot occur at top level of a parse result). -/
inductive Json where
  | null
  | bool (b : Bool)
  | num (q : ℚ)
  | str (s : String)
  | arr (elems : List Json)
  | obj (fields : List (String × Json))

/-- JavaScript truthiness of a JSON value (`NaN` does not arise from
arithmetic here; `0` and `""` and `null` and `false` are falsy, every
array and object is truthy). -/
def truthy : Json → Bool
  | Json.null => false
  | Json.bool b => b
  | Json.num q => q != 0
  | Json.str s => s != ""
  | Json.arr _ => true
  | Json.obj _ => true

/-- Property access `j[k]` on a parsed JSON value: only objects carry
fields; access on a primitive or an array yields `undefined` (`none`).
Access on `null` throws instead and is handled at the call sites. -/
def getField : Json → String → Option Json
  | Json.obj fields, k => (fields.find? (fun p => p.1 == k)).map Prod.snd
  | _, _ => none

/-- Truthiness of the JavaScript expression `j.k` (an absent field is
`undefined`, which is falsy). -/
def truthyField (j : Json) (k : String) : Bool :=
  match getField j k with
  | some v => truthy v
  | none => false

/-- The object spread `{ ...json, id: v }` from src/App.tsx line 362:
every field of `json` is kept except that `id` is (re)bound to `v`;
on a non-object the handlers never reach this expression. -/
def setId (j : Json) (v : Json) : Json :=
  match j with
  | Json.obj fields => Json.obj ((fields.filter (fun p => p.1 != "id")) ++ [("id", v)])
  | j => j

/-- The synthetic Project literal built on src/App.tsx lines 371-376 for a
legacy/bare APU array: fresh time-based id, placeholder name
"Proyecto Importado", `lastModified = Date.now()`, `apus` = the array. -/
def mkImportedProject (now : String) (nowTime : ℚ) (xs : List Json) : Json :=
  Json.obj [("id", Json.str now), ("name", Json.str "Proyecto Importado"),
            ("lastModified", Json.num nowTime), ("apus", Json.arr xs)]

/-- The application's store state: the React `projects` array (its runtime
elements are raw JSON records on the import paths) together with the
persisted document under the `localStorage` key "arquicostos-projects";
`none` = key absent, `some (Except.error ())` = a stored string that
`JSON.parse` rejects, `some (Except.ok ps)` = a stored serialization of
the project list `ps`. -/
structure AppState where
  projects : List Json
  storage : Option (Except Unit (List Json))

/-- Outcome signalled to the user by the import/restore handlers (which
`alert` fired, or which `catch` ran). -/
inductive ImportResult where
  | imported
  | restored
  | unrecognized
  | invalidBackup
  | parseError
deriving DecidableEq, Repr

/-- `handleImportBackup` from src/App.tsx lines 321-350 (the
`reader.onload` body; the file-picker plumbing and the `window.confirm`
gate are UI concerns outside the store semantics).  `parsed` is the result
of `JSON.parse` on the file text: `Except.error` models malformed JSON.
The only shape test is `Array.isArray(json)`; an array replaces the whole
store and is persisted, anything else is rejected with no mutation. -/
def handleImportBackup (parsed : Except Unit Json) (st : AppState) :
    AppState × ImportResult :=
  match parsed with
  | Except.error _ => (st, ImportResult.parseError)
  | Except.ok json =>
    match json with
    | Json.arr xs => ({ projects := xs, storage := some (Except.ok xs) }, ImportResult.restored)
    | _ => (st, ImportResult.invalidBackup)

/-- `handleFileChange` from src/App.tsx lines 352-393 (the `reader.onload`
body).  Dispatch: `json.apus && json.name` truthy ⇒ append `{...json, id:
Date.now().toString()}`; else `Array.isArray(json)` ⇒ wrap the array into
a synthetic Project and append; else alert "Formato no reconocido".
`JSON.parse` returning `null` makes the access `json.apus` throw, which
the surrounding `catch` turns into the parse-error alert. -/
def handleFileChange (now : String) (nowTime : ℚ) (parsed : Except Unit Json)
    (st : AppState) : AppState × ImportResult :=
  match parsed with
  | Except.error _ => (st, ImportResult.parseError)
  | Except.ok json =>
    match json with
    | Json.null => (st, ImportResult.parseError)
    | j =>
      if truthyField j "apus" && truthyField j "name" then
        let newProject := setId j (Json.str now)
        let updated := st.projects ++ [newProject]
        ({ projects := updated, storage := some (Except.ok updated) }, ImportResult.imported)
      else
        match j with
        | Json.arr xs =>
          let newProject := mkImportedProject now nowTime xs
          let updated := st.projects ++ [newProject]
          ({ projects := updated, storage := some (Except.ok updated) }, ImportResult.imported)
        | _ => (st, ImportResult.unrecognized)

/-- The load-on-mount effect from src/App.tsx lines 80-89: read the
persisted document; if absent do nothing, if `JSON.parse` throws the
error is caught and logged (`Bool` = whether `console.error` ran) and the
initial empty `projects` state stands, otherwise the parsed list becomes
the store. -/
def loadOnStart (storage : Option (Except Unit (List Json))) : List Json × Bool :=
  match storage with
  | none => ([], false)
  | some (Except.error _) => ([], true)
  | some (Except.ok ps) => (ps, false)

/-- `handleBackToList` from src/App.tsx lines 237-244, restricted to its
effect on the `apus` sequence: when an editor draft and an editing id are
present, every APU whose id equals the editing id is replaced by the
draft; otherwise the sequence is untouched. -/
def handleBackToList (currentEditorAPU : Option APU) (editingApuId : Option String)
    (projectAPUs : List APU) : List APU :=
  match currentEditorAPU, editingApuId with
  | some draft, some eid => projectAPUs.map (fun item => if item.id = eid then draft else item)
  | _, _ => projectAPUs

/-- Modelled from the spec: "elements look like Projects" — a JSON record
carrying the Project fields `id`, `name`, `lastModified` and `apus`.  Used
only to compare the spec's backup-detection wording against the code. -/
def projectShapedJson (j : Json) : Bool :=
  (getField j "id").isSome && (getField j "name").isSome &&
    (getField j "lastModified").isSome && (getField j "apus").isSome

/-- A left fold accumulating `+ f x` from `c` is `c` plus the sum of the
mapped list (the shape of every `reduce((acc, x) => acc + …, 0)` in the
source). -/
theorem foldl_add_map_sum {α : Type} (f : α → ℚ) (l : List α) (c : ℚ) :
    l.foldl (fun acc x => acc + f x) c = c + (l.map f).sum := by
  induction l generalizing c with
  | nil => simp
  | cons x xs ih => simp [List.foldl_cons, ih]; ring

/-- C1: `calculateUnitPrice` returns directCost + indirects + profit with
indirects = directCost × indirectsPercentage/100 and profit =
(directCost + indirects) × profitPercentage/100; equivalently
directCost × (1 + i/100) × (1 + p/100); and an APU with empty resources
yields 0. -/
theorem calculateUnitPrice_spec (apu : APU) :
    calculateUnitPrice apu =
      directCost apu + directCost apu * (apu.indirectsPercentage / 100) +
        (directCost apu + directCost apu * (apu.indirectsPercentage / 100)) *
          (apu.profitPercentage / 100) ∧
    calculateUnitPrice apu =
      directCost apu * (1 + apu.indirectsPercentage / 100) *
        (1 + apu.profitPercentage / 100) ∧
    (apu.resources = [] → calculateUnitPrice apu = 0) := by
  have hd : apu.resources.foldl (fun acc curr => acc + curr.price * curr.quantity) 0 =
      directCost apu := by
    rw [foldl_add_map_sum]; simp [directCost]
  refine ⟨?_, ?_, ?_⟩
  · simp only [calculateUnitPrice, hd]
  · simp only [calculateUnitPrice, hd]; ring
  · intro h
    simp [calculateUnitPrice, h]

/-- Concrete instance of C1: the spec's worked example — two resources
(100×2 and 50×1), 15% indirects, 10% profit give a unit price of 316.25 —
and an APU with no resources gives 0. -/
theorem calculateUnitPrice_spec_witness :
    calculateUnitPrice
      { id := "1", code := "C1", description := "", unit := "m2", quantity := 1,
        resources :=
          [{ id := "r1", name := "a", unit := "u", price := 100, quantity := 2,
             type := ResourceType.MATERIAL },
           { id := "r2", name := "b", unit := "u", price := 50, quantity := 1,
             type := ResourceType.MANO_DE_OBRA }],
        indirectsPercentage := 15, profitPercentage := 10, category := "G" } =
      (316.25 : ℚ) ∧
    calculateUnitPrice
      { id := "2", code := "C2", description := "", unit := "m2", quantity := 1,
        resources := [], indirectsPercentage := 15, profitPercentage := 10,
        category := "G" } = 0 := by
  constructor
  · have h := (calculateUnitPrice_spec
      { id := "1", code := "C1", description := "", unit := "m2", quantity := 1,
        resources :=
          [{ id := "r1", name := "a", unit := "u", price := 100, quantity := 2,
             type := ResourceType.MATERIAL },
           { id := "r2", name := "b", unit := "u", price := 50, quantity := 1,
             type := ResourceType.MANO_DE_OBRA }],
        indirectsPercentage := 15, profitPercentage := 10, category := "G" }).1
    rw [h]; norm_num [directCost]
  · exact (calculateUnitPrice_spec
      { id := "2", code := "C2", description := "", unit := "m2", quantity := 1,
        resources := [], indirectsPercentage := 15, profitPercentage := 10,
        category := "G" }).2.2 rfl

/-- C2: the aggregated total is Σ unitPrice(apu) × apu.quantity over the
list, and for two APUs of quantity 1 it is the sum of their unit prices. -/
theorem calculateTotalFromList_spec (list : List APU) (a b : APU)
    (ha : a.quantity = 1) (hb : b.quantity = 1) :
    calculateTotalFromList list =
      (list.map (fun apu => calculateUnitPrice apu * apu.quantity)).sum ∧
    calculateTotalFromList [a, b] = calculateUnitPrice a + calculateUnitPrice b := by
  constructor
  · rw [calculateTotalFromList, foldl_add_map_sum]; ring
  · simp [calculateTotalFromList, ha, hb]

/-- Concrete instance of C2 at two quantity-1 APUs. -/
theorem calculateTotalFromList_spec_witness :
    calculateTotalFromList
      [{ id := "1", code := "A", description := "", unit := "u", quantity := 1,
         resources :=
           [{ id := "r1", name := "a", unit := "u", price := 100, quantity := 2,
              type := ResourceType.MATERIAL }],
         indirectsPercentage := 15, profitPercentage := 10, category := "G" },
       { id := "2", code := "B", description := "", unit := "u", quantity := 1,
         resources :=
           [{ id := "r2", name := "b", unit := "u", price := 50, quantity := 1,
              type := ResourceType.EQUIPO }],
         indirectsPercentage := 0, profitPercentage := 0, category := "G" }] =
      calculateUnitPrice
        { id := "1", code := "A", description := "", unit := "u", quantity := 1,
          resources :=
            [{ id := "r1", name := "a", unit := "u", price := 100, quantity := 2,
               type := ResourceType.MATERIAL }],
          indirectsPercentage := 15, profitPercentage := 10, category := "G" } +
      calculateUnitPrice
        { id := "2", code := "B", description := "", unit := "u", quantity := 1,
          resources :=
            [{ id := "r2", name := "b", unit := "u", price := 50, quantity := 1,
               type := ResourceType.EQUIPO }],
          indirectsPercentage := 0, profitPercentage := 0, category := "G" } :=
  (calculateTotalFromList_spec []
    { id := "1", code := "A", description := "", unit := "u", quantity := 1,
      resources :=
        [{ id := "r1", name := "a", unit := "u", price := 100, quantity := 2,
           type := ResourceType.MATERIAL }],
      indirectsPercentage := 15, profitPercentage := 10, category := "G" }
    { id := "2", code := "B", description := "", unit := "u", quantity := 1,
      resources :=
        [{ id := "r2", name := "b", unit := "u", price := 50, quantity := 1,
           type := ResourceType.EQUIPO }],
      indirectsPercentage := 0, profitPercentage := 0, category := "G" }
    rfl rfl).2

/-- A truthy field access forces the value to be an object: primitives and
arrays have no fields, so `getField` is `none` there. -/
theorem truthyField_obj {j : Json} {k : String} (h : truthyField j k = true) :
    ∃ fs, j = Json.obj fs := by
  cases j <;> simp [truthyField, getField] at h ⊢

/-- After the spread `{ ...json, id: v }`, reading `id` yields exactly `v`:
the original `id` binding (if any) was filtered away. -/
theorem getField_setId_id (fs : List (String × Json)) (v : Json) :
    getField (setId (Json.obj fs) v) "id" = some v := by
  induction fs with
  | nil => rfl
  | cons hd tl ih =>
    by_cases h : hd.1 = "id" <;>
      simp_all [setId, getField, List.filter_cons, List.find?_cons, h]

/-- C3 counterexample: the claim says the wholesale replacement is taken
exactly when the parsed value is an array of Project-shaped records, but
`handleImportBackup` only tests `Array.isArray`: the array `[1]`, whose
element is not Project-shaped, still replaces the whole store. -/
theorem handleImportBackup_shape_counterexample :
    (handleImportBackup (Except.ok (Json.arr [Json.num 1]))
        { projects := [], storage := none }).2 = ImportResult.restored ∧
    (handleImportBackup (Except.ok (Json.arr [Json.num 1]))
        { projects := [], storage := none }).1.projects = [Json.num 1] ∧
    projectShapedJson (Json.num 1) = false :=
  ⟨rfl, rfl, rfl⟩

/-- C3 (amended): the replacement is taken exactly when the parsed
top-level value is an ordered sequence (any array, regardless of element
shape); for such a sequence of N records it replaces the entire store —
in memory and persisted — with exactly those N, with no merge and no id
renaming, and restoring the same backup twice leaves the same final N. -/
theorem handleImportBackup_replace (xs store : List Json)
    (stor : Option (Except Unit (List Json))) :
    handleImportBackup (Except.ok (Json.arr xs)) { projects := store, storage := stor } =
      ({ projects := xs, storage := some (Except.ok xs) }, ImportResult.restored) ∧
    (handleImportBackup (Except.ok (Json.arr xs))
        (handleImportBackup (Except.ok (Json.arr xs))
          { projects := store, storage := stor }).1).1.projects = xs ∧
    (handleImportBackup (Except.ok (Json.arr xs))
        { projects := store, storage := stor }).1.projects.length = xs.length ∧
    ∀ (j : Json) (st : AppState),
      (handleImportBackup (Except.ok j) st).2 = ImportResult.restored ↔
        ∃ ys, j = Json.arr ys := by
  refine ⟨rfl, rfl, rfl, ?_⟩
  intro j st
  cases j <;> simp [handleImportBackup]

/-- C4 counterexample: the claim says any record with both `apus` and
`name` fields is appended with a fresh id, but detection is by truthiness:
a record whose `apus` field is present but `null` falls through to the
unrecognized-format branch and nothing is appended. -/
theorem handleFileChange_presence_counterexample :
    getField (Json.obj [("apus", Json.null), ("name", Json.str "X")]) "apus" =
      some Json.null ∧
    getField (Json.obj [("apus", Json.null), ("name", Json.str "X")]) "name" =
      some (Json.str "X") ∧
    handleFileChange "1" 0
      (Except.ok (Json.obj [("apus", Json.null), ("name", Json.str "X")]))
      { projects := [], storage := none } =
      ({ projects := [], storage := none }, ImportResult.unrecognized) :=
  ⟨rfl, rfl, rfl⟩

/-- C4 (amended): for every parsed top-level record whose `apus` and
`name` fields are present and truthy, import appends it with a freshly
generated id (the imported id is discarded), removes or overwrites
nothing, and importing the same record twice (with distinct generated
ids) appends two projects whose ids differ. -/
theorem handleFileChange_import_spec (j : Json) (st : AppState) (t1 t2 : String)
    (nt : ℚ) (hA : truthyField j "apus" = true) (hN : truthyField j "name" = true)
    (hne : t1 ≠ t2) :
    handleFileChange t1 nt (Except.ok j) st =
      ({ projects := st.projects ++ [setId j (Json.str t1)],
         storage := some (Except.ok (st.projects ++ [setId j (Json.str t1)])) },
        ImportResult.imported) ∧
    getField (setId j (Json.str t1)) "id" = some (Json.str t1) ∧
    (handleFileChange t2 nt (Except.ok j)
        (handleFileChange t1 nt (Except.ok j) st).1).1.projects =
      st.projects ++ [setId j (Json.str t1), setId j (Json.str t2)] ∧
    getField (setId j (Json.str t1)) "id" ≠ getField (setId j (Json.str t2)) "id" := by
  obtain ⟨fs, rfl⟩ := truthyField_obj hA
  have h1 : ∀ t : String, handleFileChange t nt (Except.ok (Json.obj fs)) st =
      ({ projects := st.projects ++ [setId (Json.obj fs) (Json.str t)],
         storage := some (Except.ok (st.projects ++ [setId (Json.obj fs) (Json.str t)])) },
        ImportResult.imported) := by
    intro t
    simp [handleFileChange, hA, hN]
  refine ⟨h1 t1, getField_setId_id fs (Json.str t1), ?_, ?_⟩
  · rw [h1 t1]
    have h2 : handleFileChange t2 nt (Except.ok (Json.obj fs))
        { projects := st.projects ++ [setId (Json.obj fs) (Json.str t1)],
          storage := some (Except.ok (st.projects ++ [setId (Json.obj fs) (Json.str t1)])) } =
        ({ projects := (st.projects ++ [setId (Json.obj fs) (Json.str t1)]) ++
             [setId (Json.obj fs) (Json.str t2)],
           storage := some (Except.ok ((st.projects ++ [setId (Json.obj fs) (Json.str t1)]) ++
             [setId (Json.obj fs) (Json.str t2)])) },
          ImportResult.imported) := by
      simp [handleFileChange, hA, hN]
    rw [h2]
    simp
  · rw [getField_setId_id, getField_setId_id]
    simp [hne]

/-- Concrete instance of C4 (amended): importing the record
`{name: "P", apus: []}` twice with generated ids "1" then "2" appends two
projects with differing ids. -/
theorem handleFileChange_import_spec_witness :
    handleFileChange "1" 0
      (Except.ok (Json.obj [("name", Json.str "P"), ("apus", Json.arr [])]))
      { projects := [], storage := none } =
      ({ projects := [setId (Json.obj [("name", Json.str "P"), ("apus", Json.arr [])])
           (Json.str "1")],
         storage := some (Except.ok
           [setId (Json.obj [("name", Json.str "P"), ("apus", Json.arr [])])
             (Json.str "1")]) },
        ImportResult.imported) ∧
    getField (setId (Json.obj [("name", Json.str "P"), ("apus", Json.arr [])])
      (Json.str "1")) "id" = some (Json.str "1") ∧
    (handleFileChange "2" 0
        (Except.ok (Json.obj [("name", Json.str "P"), ("apus", Json.arr [])]))
        (handleFileChange "1" 0
          (Except.ok (Json.obj [("name", Json.str "P"), ("apus", Json.arr [])]))
          { projects := [], storage := none }).1).1.projects =
      [setId (Json.obj [("name", Json.str "P"), ("apus", Json.arr [])]) (Json.str "1"),
       setId (Json.obj [("name", Json.str "P"), ("apus", Json.arr [])]) (Json.str "2")] ∧
    getField (setId (Json.obj [("name", Json.str "P"), ("apus", Json.arr [])])
        (Json.str "1")) "id" ≠
      getField (setId (Json.obj [("name", Json.str "P"), ("apus", Json.arr [])])
        (Json.str "2")) "id" := by
  have h := handleFileChange_import_spec
    (Json.obj [("name", Json.str "P"), ("apus", Json.arr [])])
    { projects := [], storage := none } "1" "2" 0 rfl rfl (by decide)
  simpa using h

/-- Summing a per-APU filtered resource total equals filtering the flattened
resource pool of the whole project. -/
theorem category_sum_flatten (t : ResourceType) (apus : List APU) :
    (apus.map (fun a =>
      ((a.resources.filter (fun r => r.type == t)).map
        (fun r => r.price * r.quantity)).sum)).sum =
    (((apus.map APU.resources).flatten.filter (fun r => r.type == t)).map
      (fun r => r.price * r.quantity)).sum := by
  induction apus with
  | nil => rfl
  | cons a l ih =>
    simp [List.filter_append, ih]

/-- C5: each category subtotal is the markup-free Σ price × quantity over
the project-wide pool of resources of that type, and is invariant under
changing every APU's indirects/profit percentages, while the aggregate
`totalPrice` is the marked-up total. -/
theorem computeProjectStats_categories (apus : List APU) (ip pp : ℚ) :
    ((computeProjectStats apus).materialCost =
      (((apus.map APU.resources).flatten.filter
          (fun r => r.type == ResourceType.MATERIAL)).map
        (fun r => r.price * r.quantity)).sum ∧
     (computeProjectStats apus).laborCost =
      (((apus.map APU.resources).flatten.filter
          (fun r => r.type == ResourceType.MANO_DE_OBRA)).map
        (fun r => r.price * r.quantity)).sum ∧
     (computeProjectStats apus).equipmentCost =
      (((apus.map APU.resources).flatten.filter
          (fun r => r.type == ResourceType.EQUIPO)).map
        (fun r => r.price * r.quantity)).sum ∧
     (computeProjectStats apus).transportCost =
      (((apus.map APU.resources).flatten.filter
          (fun r => r.type == ResourceType.TRANSPORTE)).map
        (fun r => r.price * r.quantity)).sum) ∧
    ((computeProjectStats (apus.map (fun a =>
        { a with indirectsPercentage := ip, profitPercentage := pp }))).materialCost =
      (computeProjectStats apus).materialCost ∧
     (computeProjectStats (apus.map (fun a =>
        { a with indirectsPercentage := ip, profitPercentage := pp }))).laborCost =
      (computeProjectStats apus).laborCost ∧
     (computeProjectStats (apus.map (fun a =>
        { a with indirectsPercentage := ip, profitPercentage := pp }))).equipmentCost =
      (computeProjectStats apus).equipmentCost ∧
     (computeProjectStats (apus.map (fun a =>
        { a with indirectsPercentage := ip, profitPercentage := pp }))).transportCost =
      (computeProjectStats apus).transportCost) ∧
    (computeProjectStats apus).totalPrice = calculateTotalFromList apus := by
  refine ⟨⟨category_sum_flatten _ apus, category_sum_flatten _ apus,
           category_sum_flatten _ apus, category_sum_flatten _ apus⟩, ⟨?_, ?_, ?_, ?_⟩, rfl⟩ <;>
    · simp only [computeProjectStats, List.map_map]
      rfl

/-- C6: a parsed top-level array on the import path (in particular one
whose elements are not Project-shaped) is wrapped into a synthetic new
Project — placeholder name "Proyecto Importado", fresh id, `lastModified =
now`, `apus` = the array — which is appended to the store and persisted. -/
theorem handleFileChange_legacy_spec (xs store : List Json)
    (stor : Option (Except Unit (List Json))) (now : String) (nt : ℚ) :
    handleFileChange now nt (Except.ok (Json.arr xs))
      { projects := store, storage := stor } =
      ({ projects := store ++ [mkImportedProject now nt xs],
         storage := some (Except.ok (store ++ [mkImportedProject now nt xs])) },
        ImportResult.imported) ∧
    getField (mkImportedProject now nt xs) "name" =
      some (Json.str "Proyecto Importado") ∧
    getField (mkImportedProject now nt xs) "id" = some (Json.str now) ∧
    getField (mkImportedProject now nt xs) "lastModified" = some (Json.num nt) ∧
    getField (mkImportedProject now nt xs) "apus" = some (Json.arr xs) := by
  refine ⟨?_, rfl, rfl, rfl, rfl⟩
  simp [handleFileChange, truthyField, getField]

/-- C7: malformed JSON (a parse exception), the throwing access on a parsed
`null`, and every unrecognized parsed shape (bare number, string, boolean;
non-array for the backup path) leave the in-memory store and the persisted
document unchanged and signal an error result. -/
theorem import_error_no_mutation (st : AppState) (now : String) (nt q : ℚ)
    (s : String) (b : Bool) :
    handleFileChange now nt (Except.error ()) st = (st, ImportResult.parseError) ∧
    handleImportBackup (Except.error ()) st = (st, ImportResult.parseError) ∧
    handleFileChange now nt (Except.ok (Json.num q)) st = (st, ImportResult.unrecognized) ∧
    handleFileChange now nt (Except.ok (Json.str s)) st = (st, ImportResult.unrecognized) ∧
    handleFileChange now nt (Except.ok (Json.bool b)) st = (st, ImportResult.unrecognized) ∧
    handleFileChange now nt (Except.ok Json.null) st = (st, ImportResult.parseError) ∧
    handleImportBackup (Except.ok (Json.num q)) st = (st, ImportResult.invalidBackup) ∧
    handleImportBackup (Except.ok (Json.str s)) st = (st, ImportResult.invalidBackup) ∧
    handleImportBackup (Except.ok (Json.bool b)) st = (st, ImportResult.invalidBackup) ∧
    handleImportBackup (Except.ok Json.null) st = (st, ImportResult.invalidBackup) ∧
    ∀ fields, handleImportBackup (Except.ok (Json.obj fields)) st =
      (st, ImportResult.invalidBackup) := by
  refine ⟨rfl, rfl, ?_, ?_, ?_, rfl, rfl, rfl, rfl, rfl, fun fields => rfl⟩ <;>
    simp [handleFileChange, truthyField, getField]

/-- C8: a persisted document that fails to parse at load-on-start is
caught and logged (`true`) and the store starts empty; an absent document
also leaves the store empty, without logging. -/
theorem loadOnStart_corrupt :
    loadOnStart (some (Except.error ())) = ([], true) ∧
    loadOnStart none = ([], false) :=
  ⟨rfl, rfl⟩

/-- Replacing-by-id over a list containing no matching id is the identity
map. -/
theorem map_commit_id_eq_self (draft : APU) (l : List APU) :
    (∀ a ∈ l, a.id ≠ draft.id) →
    l.map (fun item => if item.id = draft.id then draft else item) = l := by
  induction l with
  | nil => intro _; rfl
  | cons x xs ih =>
    intro h
    rw [List.map_cons, if_neg (h x (List.mem_cons_self x xs)),
      ih (fun a ha => h a (List.mem_cons_of_mem x ha))]

/-- C9: committing an editor draft whose id matches no APU in the current
`apus` sequence leaves the sequence elementwise unchanged — the draft is
silently discarded, never appended or recreated. -/
theorem handleBackToList_missing_id (draft : APU) (apus : List APU)
    (h : ∀ a ∈ apus, a.id ≠ draft.id) :
    handleBackToList (some draft) (some draft.id) apus = apus := by
  simp only [handleBackToList]
  exact map_commit_id_eq_self draft apus h

/-- Concrete instance of C9: committing a draft with id "99" against a
project whose only APU has id "1" changes nothing. -/
theorem handleBackToList_missing_id_witness :
    handleBackToList
      (some { id := "99", code := "D", description := "", unit := "u", quantity := 1,
              resources := [], indirectsPercentage := 15, profitPercentage := 10,
              category := "G" })
      (some "99")
      [{ id := "1", code := "A", description := "", unit := "u", quantity := 1,
         resources := [], indirectsPercentage := 15, profitPercentage := 10,
         category := "G" }] =
      [{ id := "1", code := "A", description := "", unit := "u", quantity := 1,
         resources := [], indirectsPercentage := 15, profitPercentage := 10,
         category := "G" }] :=
  handleBackToList_missing_id
    { id := "99", code := "D", description := "", unit := "u", quantity := 1,
      resources := [], indirectsPercentage := 15, profitPercentage := 10,
      category := "G" }
    [{ id := "1", code := "A", description := "", unit := "u", quantity := 1,
       resources := [], indirectsPercentage := 15, profitPercentage := 10,
       category := "G" }]
    (by decide)

/-- C10: an imported top-level record whose `name` is the empty string, or
whose `apus` field is present but falsy (e.g. `null`), does not take the
single-project path: it falls through to the unrecognized-format branch
with no mutation, because detection tests truthiness, not presence. -/
theorem handleFileChange_falsy_fields (fields : List (String × Json))
    (st : AppState) (now : String) (nt : ℚ)
    (h : getField (Json.obj fields) "name" = some (Json.str "") ∨
         ∃ v, getField (Json.obj fields) "apus" = some v ∧ truthy v = false) :
    handleFileChange now nt (Except.ok (Json.obj fields)) st =
      (st, ImportResult.unrecognized) := by
  have hcond : (truthyField (Json.obj fields) "apus" &&
      truthyField (Json.obj fields) "name") = false := by
    rcases h with h | ⟨v, hv, htv⟩
    · simp [truthyField, h, truthy]
    · simp [truthyField, hv, htv]
  simp [handleFileChange, hcond]

/-- Concrete instance of C10: a record with truthy `apus` but an
empty-string `name` is rejected as unrecognized with no mutation. -/
theorem handleFileChange_falsy_fields_witness :
    handleFileChange "1" 0
      (Except.ok (Json.obj [("apus", Json.arr []), ("name", Json.str "")]))
      { projects := [], storage := none } =
      ({ projects := [], storage := none }, ImportResult.unrecognized) :=
  handleFileChange_falsy_fields [("apus", Json.arr []), ("name", Json.str "")]
    { projects := [], storage := none } "1" 0 (Or.inl rfl)

end ArquiCostos
